import Mathlib

/-!
Shallow embedding of the nf-core pipeline lint orchestrator
(`nf_core/lint/__init__.py`): the check loop of `_lint_pipeline`, the
result buckets of `PipelineLint`, the lint-config loader, the commit
identity resolution of `__init__`, the ANSI stripping helper, and the
Markdown / JSON renderers, together with theorems settling the
specified behaviour of each part.
-/

namespace NfCoreLint

/-- Result of a single check body: the `passed` / `warned` / `failed`
message lists of the dict returned by a check function (an absent key
is the empty list, matching the `test_results.get(..., [])` reads at
lines 294-298). -/
structure CheckResult where
  passed : List String
  warned : List String
  failed : List String
deriving Repr, DecidableEq

/-- An error raised by a check body: `critical` models `AssertionError`
(the only class caught by `run_linting`, line 53), `noncritical` models
any other exception raised inside a check. -/
inductive LintError where
  | critical : String → LintError
  | noncritical : String → LintError
deriving Repr, DecidableEq

/-- The four result buckets of a `PipelineLint` object: lists of
`(check-name, message)` pairs, append-only during a run. -/
structure LintState where
  passed : List (String × String)
  warned : List (String × String)
  failed : List (String × String)
  ignored : List (String × String)
deriving Repr, DecidableEq

/-- The buckets as `__init__` leaves them (lines 167-179). -/
def emptyLintState : LintState := ⟨[], [], [], []⟩

/-- Outcome of `_lint_pipeline`: the bucket state when the loop stops,
the names of the checks whose bodies were actually invoked (in order),
and the error the loop stopped with, if any. -/
structure LintRun where
  state : LintState
  trace : List String
  err : Option LintError
deriving Repr, DecidableEq

/-- The bucket appends of one successful check (lines 294-299): every
message is tagged with the name of the check that is running. -/
def appendResults (st : LintState) (t : String) (res : CheckResult) : LintState :=
  { passed := st.passed ++ res.passed.map (fun m => (t, m))
    warned := st.warned ++ res.warned.map (fun m => (t, m))
    failed := st.failed ++ res.failed.map (fun m => (t, m))
    ignored := st.ignored }

/-- Record one invoked check name in front of the trace of a run. -/
def consTrace (t : String) (r : LintRun) : LintRun :=
  ⟨r.state, t :: r.trace, r.err⟩

/-- The loop of `PipelineLint._lint_pipeline` (lines 286-299): for each
name in order, a lint-config value of `False` records `(name, name)` in
`ignored` and skips the body; otherwise the body runs and its
`passed` / `warned` / `failed` messages are appended to the buckets,
each tagged with the check name. There is no `try` around the body, so
an exception ends the loop at once with the buckets as accumulated so
far. -/
def lintPipelineAux (checks : String → Except LintError CheckResult)
    (cfg : String → Option Bool) : List String → LintState → LintRun
  | [], st => ⟨st, [], none⟩
  | t :: rest, st =>
    if cfg t = some false then
      lintPipelineAux checks cfg rest
        { st with ignored := st.ignored ++ [(t, t)] }
    else
      match checks t with
      | .error e => ⟨st, [t], some e⟩
      | .ok res => consTrace t (lintPipelineAux checks cfg rest (appendResults st t res))

/-- `PipelineLint._lint_pipeline` starting from the empty buckets set up
by `__init__`. -/
def lintPipeline (checks : String → Except LintError CheckResult)
    (cfg : String → Option Bool) (tests : List String) : LintRun :=
  lintPipelineAux checks cfg tests emptyLintState

/-- What the caller of `run_linting` observes (lines 51-56): normal
completion, a critical abort (`AssertionError` caught, the partially
populated lint object returned, message logged), or any other exception
propagating out of `run_linting` uncaught. -/
inductive RunOutcome where
  | completed : LintState → List String → RunOutcome
  | aborted : String → LintState → List String → RunOutcome
  | crashed : String → LintState → List String → RunOutcome
deriving Repr, DecidableEq

/-- `run_linting` restricted to the lint loop and its error handling
(lines 51-56): only `AssertionError` is caught. -/
def run_linting (checks : String → Except LintError CheckResult)
    (cfg : String → Option Bool) (tests : List String) : RunOutcome :=
  match lintPipeline checks cfg tests with
  | ⟨st, tr, none⟩ => .completed st tr
  | ⟨st, tr, some (.critical m)⟩ => .aborted m st tr
  | ⟨st, tr, some (.noncritical m)⟩ => .crashed m st tr

/-- The fixed check registry built at lines 181-199 of `__init__`. -/
def baseLintTests : List String :=
  ["files_exist", "licence", "docker", "nextflow_config",
   "actions_branch_protection", "actions_ci", "actions_lint",
   "actions_awstest", "actions_awsfulltest", "readme", "conda_env_yaml",
   "conda_dockerfile", "pipeline_todos", "pipeline_name_conventions",
   "cookiecutter_strings", "schema_lint", "schema_params"]

/-- The fields of a freshly constructed `PipelineLint` object that the
claims are about. -/
structure PipelineLintObj where
  release_mode : Bool
  lint_tests : List String
  git_sha : Option String
deriving Repr, DecidableEq

set_option linter.unusedVariables false in
/-- `PipelineLint.__init__` (lines 161-211). `headSha` models the
`git.Repo(path).head.object.hexsha` lookup of lines 203-207 (`none`
when the bare `except` fires), `envPrCommit` the `GITHUB_PR_COMMIT`
environment variable (`none` when unset). Line 176 assigns the
instance field `release_mode = False`; the constructor argument is
never stored, so the guard at line 200 reads `False` and the
`version_consistency` extension never runs. -/
def pipelineLintInit (releaseModeArg : Bool) (headSha : Option String)
    (envPrCommit : Option String) : PipelineLintObj :=
  let release_mode := false
  let lint_tests :=
    baseLintTests ++ (if release_mode then ["version_consistency"] else [])
  let git_sha := headSha
  let git_sha :=
    if envPrCommit.getD "" ≠ "" then some (envPrCommit.getD "") else git_sha
  { release_mode := release_mode, lint_tests := lint_tests,
    git_sha := git_sha }

/-- `PipelineLint._parse_lint_config` (lines 213-238). The two slots
model the files `.nf-core-lint.yml` and `.nf-core-lint.yaml` in the
pipeline root; `.yml` takes precedence (lines 222-226). A present file
carries the outcome of `yaml.safe_load` on its content. Only
`FileNotFoundError` — both files absent — is caught (line 232), leaving
the mapping empty; a parse error raised by the YAML library is not
caught and propagates, modelled by the `Except.error` result. -/
def parse_lint_config
    (ymlFile yamlFile : Option (Except String (List (String × Bool)))) :
    Except String (List (String × Bool)) :=
  match (if ymlFile.isSome then ymlFile else yamlFile) with
  | none => .ok []
  | some (.ok cfg) => .ok cfg
  | some (.error e) => .error e

/-- The escape character `\x1B` that starts every match of the regex at
line 500. -/
def escChar : Char := Char.ofNat 27

/-- The single-character alternative of the regex at line 500: the
class of `@` to `Z` together with backslash to underscore, i.e. code
points `0x40`-`0x5A` and `0x5C`-`0x5F`. -/
def isAnsiSingle (c : Char) : Bool :=
  (0x40 ≤ c.toNat && c.toNat ≤ 0x5A) || (0x5C ≤ c.toNat && c.toNat ≤ 0x5F)

/-- CSI parameter bytes: the class `0` to `?`, `0x30`-`0x3F`. -/
def isCsiParam (c : Char) : Bool := 0x30 ≤ c.toNat && c.toNat ≤ 0x3F

/-- CSI intermediate bytes: the class space to `/`, `0x20`-`0x2F`. -/
def isCsiInter (c : Char) : Bool := 0x20 ≤ c.toNat && c.toNat ≤ 0x2F

/-- CSI final bytes: the class `@` to `~`, `0x40`-`0x7E`. -/
def isCsiFinal (c : Char) : Bool := 0x40 ≤ c.toNat && c.toNat ≤ 0x7E

/-- Length of the leftmost match of the ANSI-escape regex of line 500
at the head of the character list, if any. The three CSI character
classes are pairwise disjoint, so the greedy scan needs no
backtracking and is exact. -/
def ansiMatchLen : List Char → Option Nat
  | c₀ :: c :: rest =>
    if c₀ = escChar then
      if isAnsiSingle c then some 2
      else if c = '[' then
        let ps := rest.takeWhile isCsiParam
        let rest₂ := rest.dropWhile isCsiParam
        let ins := rest₂.takeWhile isCsiInter
        let rest₃ := rest₂.dropWhile isCsiInter
        match rest₃ with
        | f :: _ =>
          if isCsiFinal f then some (2 + ps.length + (ins.length + 1))
          else none
        | [] => none
      else none
    else none
  | _ => none

/-- One `re.sub` pass: scan left to right, replace each leftmost
non-overlapping match by `rep`, keep every other character. The fuel
only bounds the recursion; the length of the list is always enough,
since every step consumes at least one character. -/
def stripAnsiAux (rep : List Char) : Nat → List Char → List Char
  | 0, l => l
  | _ + 1, [] => []
  | fuel + 1, c :: cs =>
    match ansiMatchLen (c :: cs) with
    | some n => rep ++ stripAnsiAux rep fuel (List.drop n (c :: cs))
    | none => c :: stripAnsiAux rep fuel cs

/-- `PipelineLint._strip_ansi_codes` (lines 498-501). -/
def strip_ansi_codes (s : String) (replace_with : String) : String :=
  ⟨stripAnsiAux replace_with.toList s.toList.length s.toList⟩

/-- Python's width-3 right-aligned decimal formatting (format spec
`3d`), used for the bucket counts of the Markdown report. -/
def fmtNat3 (n : Nat) : String :=
  let s := toString n
  ⟨List.replicate (3 - s.length) ' ' ++ s.toList⟩

/-- One bullet of the Markdown report (lines 384, 397, 410, 423): the
check name linked to its documentation page, then the message with
ANSI escapes replaced by backticks. -/
def mdBullet (eid msg : String) : String :=
  "* [" ++ eid ++ "](https://nf-co.re/errors#" ++ eid ++ ") - "
    ++ strip_ansi_codes msg "`"

/-- The newline-joined bullet list of one bucket. -/
def mdBulletList (entries : List (String × String)) : String :=
  String.intercalate "\n" (entries.map (fun e => mdBullet e.1 e.2))

/-- The commit attribution of `_get_results_md` (line 451): the first
seven characters of the sha when one is known, the empty string
otherwise. -/
def commit_line (git_sha : Option String) : String :=
  match git_sha with
  | some sha => "Posted for pipeline commit " ++ sha.take 7
  | none => ""

/-- The `test_passed_count` fragment (line 419). -/
def testPassedCount (st : LintState) : String :=
  if st.passed.length > 0 then
    "\n+| ✅ " ++ fmtNat3 st.passed.length ++ " tests passed       |+"
  else ""

/-- The `test_ignored_count` fragment (line 393); the label text is
copied verbatim from the source. -/
def testIgnoredCount (st : LintState) : String :=
  if st.ignored.length > 0 then
    "\n#| ❔ " ++ fmtNat3 st.ignored.length ++ " tests had warnings |#"
  else ""

/-- The `test_warning_count` fragment (line 406). -/
def testWarningCount (st : LintState) : String :=
  if st.warned.length > 0 then
    "\n!| ❗ " ++ fmtNat3 st.warned.length ++ " tests had warnings |!"
  else ""

/-- The `test_failure_count` fragment (line 380). -/
def testFailureCount (st : LintState) : String :=
  if st.failed.length > 0 then
    "\n-| ❌ " ++ fmtNat3 st.failed.length ++ " tests failed       |-"
  else ""

/-- The `test_failures` detail section (lines 381-388). -/
def testFailuresSection (st : LintState) : String :=
  if st.failed.length > 0 then
    "### :x: Test failures:\n\n" ++ mdBulletList st.failed ++ "\n\n"
  else ""

/-- The `test_ignored` detail section (lines 394-401). -/
def testIgnoredSection (st : LintState) : String :=
  if st.ignored.length > 0 then
    "### :grey_question: Tests ignored:\n\n" ++ mdBulletList st.ignored ++ "\n\n"
  else ""

/-- The `test_warnings` detail section (lines 407-414). -/
def testWarningsSection (st : LintState) : String :=
  if st.warned.length > 0 then
    "### :heavy_exclamation_mark: Test warnings:\n\n"
      ++ mdBulletList st.warned ++ "\n\n"
  else ""

/-- The `test_passes` detail section (lines 420-427). -/
def testPassesSection (st : LintState) : String :=
  if st.passed.length > 0 then
    "### :white_check_mark: Tests passed:\n\n" ++ mdBulletList st.passed ++ "\n\n"
  else ""

/-- `PipelineLint._get_results_md` (lines 367-464), with the dedented
template of lines 431-448 written out and the `datetime.datetime.now()`
read of line 429 made explicit as the `now` argument. -/
def get_results_md (st : LintState) (git_sha : Option String)
    (version : String) (now : String) : String :=
  let overall :=
    if st.failed.length > 0 then "Failed :x:" else "Passed :white_check_mark:"
  "\n#### `nf-core lint` overall result: " ++ overall ++ "\n\n"
    ++ commit_line git_sha ++ "\n\n```diff"
    ++ testPassedCount st ++ testIgnoredCount st
    ++ testWarningCount st ++ testFailureCount st
    ++ "\n```\n\n<details>\n\n"
    ++ testFailuresSection st ++ testWarningsSection st
    ++ testIgnoredSection st ++ testPassesSection st
    ++ "### Run details:\n\n* nf-core/tools version " ++ version
    ++ "\n* Run at `" ++ now ++ "`\n\n</details>\n"

/-- One JSON value of the results dict. -/
inductive JsonVal where
  | str : String → JsonVal
  | num : Nat → JsonVal
  | bool : Bool → JsonVal
  | pairs : List (String × String) → JsonVal
deriving Repr, DecidableEq

/-- The `results` dict of `_save_json_results` (lines 472-488), as the
ordered key/value list handed to `json.dump`. `date_run` is the
formatted `datetime.datetime.now()` read at line 472, and `md_now` the
one of the separate call at line 429 inside `_get_results_md`. -/
def save_json_results (version date_run : String) (st : LintState)
    (git_sha : Option String) (md_now : String) : List (String × JsonVal) :=
  [("nf_core_tools_version", .str version),
   ("date_run", .str date_run),
   ("tests_pass", .pairs (st.passed.map (fun p => (p.1, strip_ansi_codes p.2 "")))),
   ("tests_ignored", .pairs (st.ignored.map (fun p => (p.1, strip_ansi_codes p.2 "")))),
   ("tests_warned", .pairs (st.warned.map (fun p => (p.1, strip_ansi_codes p.2 "")))),
   ("tests_failed", .pairs (st.failed.map (fun p => (p.1, strip_ansi_codes p.2 "")))),
   ("num_tests_pass", .num st.passed.length),
   ("num_tests_ignored", .num st.ignored.length),
   ("num_tests_warned", .num st.warned.length),
   ("num_tests_failed", .num st.failed.length),
   ("has_tests_pass", .bool (decide (st.passed.length > 0))),
   ("has_tests_warned", .bool (decide (st.warned.length > 0))),
   ("has_tests_failed", .bool (decide (st.failed.length > 0))),
   ("markdown_result", .str (get_results_md st git_sha version md_now))]

/-! ### Concrete fixtures used by witnesses and counterexamples -/

/-- A registry in which every check body raises a non-critical error. -/
def boomChecks : String → Except LintError CheckResult :=
  fun _ => .error (.noncritical "boom")

/-- An empty lint-config mapping: no overrides. -/
def noCfg : String → Option Bool := fun _ => none

/-- A registry in which `files_exist` succeeds with one passed message
and every other check raises a critical error. -/
def critChecks : String → Except LintError CheckResult :=
  fun n =>
    if n = "files_exist" then .ok ⟨["Pipeline found"], [], []⟩
    else .error (.critical "missing main.nf")

/-- A registry in which every check succeeds with one passed message. -/
def okChecks : String → Except LintError CheckResult :=
  fun _ => .ok ⟨["all good"], [], []⟩

/-- A lint config that disables the check named `b`. -/
def skipBCfg : String → Option Bool :=
  fun n => if n = "b" then some false else none

/-- A message whose escape sequence is followed by ordinary text. -/
def redMsg : String := ⟨[escChar, '[', '3', '1', 'm', 'R']⟩

/-- An escape character directly in front of a complete CSI sequence:
removing the sequence splices the leading escape onto the `A`. -/
def spliceMsg : String := ⟨[escChar, escChar, '[', 'm', 'A']⟩

/-- An unfinished CSI introducer in front of a complete CSI sequence:
substituting a backtick for the sequence completes the first one. -/
def spliceMsg₂ : String := ⟨[escChar, '[', escChar, '[', 'm', 'A']⟩

/-- A small aggregate state with one entry per bucket. -/
def sampleState : LintState :=
  ⟨[("licence", "ok")], [("readme", "meh")], [("docker", "bad")],
   [("schema_lint", "schema_lint")]⟩

/-! ### Theorems for the individual claims -/

/-- C2: the claim reads `release_mode=True` as adding the release-only
check `version_consistency` to `lint_tests`, matching the docstrings of
`run_linting` and `PipelineLint`. The code contradicts them: line 176
hardcodes the instance field to `False` before the registry is built at
lines 181-201, so `version_consistency` is never included, whichever
value the constructor argument has. -/
theorem c2_release_mode_never_extends :
    "version_consistency" ∉ (pipelineLintInit true none none).lint_tests
      ∧ "version_consistency" ∉ (pipelineLintInit false none none).lint_tests := by
  decide

/-- C4 counterexample: a present override file with malformed content
makes the loader re-raise the parse error (only `FileNotFoundError` is
caught at line 232), so the run crashes instead of warning. -/
theorem c4_counterexample :
    parse_lint_config (some (.error "mapping values are not allowed here")) none
      = .error "mapping values are not allowed here" := rfl

/-- C4 (amended): with no override file under either recognized name
the loader yields the empty mapping and never an error, and a well-formed
file is parsed; but malformed content is not downgraded to a warning:
the parse error propagates out of the loader and crashes the run. -/
theorem c4_config_loader (e : String) (cfg : List (String × Bool))
    (yamlFile : Option (Except String (List (String × Bool)))) :
    parse_lint_config none none = .ok []
      ∧ parse_lint_config (some (.ok cfg)) yamlFile = .ok cfg
      ∧ parse_lint_config (some (.error e)) yamlFile = .error e :=
  ⟨rfl, rfl, rfl⟩

/-- C7: commit identity resolution: a non-empty `GITHUB_PR_COMMIT`
value wins over the repository HEAD; with the variable unset the HEAD
sha (or `None`) is kept; and a `None` identity makes the Markdown
renderer emit no attribution line. -/
theorem c7_commit_identity :
    (∀ (s : String) (head : Option String) (rm : Bool),
        s ≠ "" → (pipelineLintInit rm head (some s)).git_sha = some s)
    ∧ (∀ (head : Option String) (rm : Bool),
        (pipelineLintInit rm head none).git_sha = head)
    ∧ commit_line none = "" := by
  refine ⟨?_, ?_, rfl⟩
  · intro s head rm hs
    simp [pipelineLintInit, hs]
  · intro head rm
    simp [pipelineLintInit]

/-- C7 witness: the environment override beats the repository HEAD. -/
theorem c7_commit_identity_witness :
    ("abc1234def" : String) ≠ ""
      ∧ (pipelineLintInit false (some "def5678abc") (some "abc1234def")).git_sha
          = some "abc1234def" :=
  ⟨by decide, c7_commit_identity.1 "abc1234def" (some "def5678abc") false (by decide)⟩

/-- C10: a `GITHUB_PR_COMMIT` value equal to the empty string is
treated as absent (the guard at line 210 compares against `""`), so the
identity resolved from the repository HEAD, or `None`, is kept. -/
theorem c10_empty_env_ignored (head : Option String) (rm : Bool) :
    (pipelineLintInit rm head (some "")).git_sha = head := by
  simp [pipelineLintInit]

/-- C3 counterexample: the JSON results object has no `has_tests_ignored`
key — the `has_<bucket>` flags of lines 484-486 cover only the passed,
warned and failed buckets. -/
theorem c3_counterexample :
    "has_tests_ignored" ∉
      (save_json_results "1.10" "2020-01-01 00:00:00" sampleState none
          "2020-01-01 00:00:00").map Prod.fst := by
  decide

/-- C3 (amended): the JSON results object carries the tool version, the
generation timestamp, one `[check-name, stripped-message]` sequence and
one count per bucket, the full Markdown rendering as a string field, and
a boolean `has_<bucket>` flag for the passed, warned and failed buckets
only — there is no `has_tests_ignored` flag. -/
theorem c3_json_shape (version date_run : String) (st : LintState)
    (git_sha : Option String) (md_now : String) :
    ((save_json_results version date_run st git_sha md_now).map Prod.fst =
      ["nf_core_tools_version", "date_run", "tests_pass", "tests_ignored",
       "tests_warned", "tests_failed", "num_tests_pass", "num_tests_ignored",
       "num_tests_warned", "num_tests_failed", "has_tests_pass",
       "has_tests_warned", "has_tests_failed", "markdown_result"])
    ∧ (save_json_results version date_run st git_sha md_now)[0]? =
        some ("nf_core_tools_version", .str version)
    ∧ (save_json_results version date_run st git_sha md_now)[1]? =
        some ("date_run", .str date_run)
    ∧ (save_json_results version date_run st git_sha md_now)[2]? =
        some ("tests_pass",
          .pairs (st.passed.map (fun p => (p.1, strip_ansi_codes p.2 ""))))
    ∧ (save_json_results version date_run st git_sha md_now)[3]? =
        some ("tests_ignored",
          .pairs (st.ignored.map (fun p => (p.1, strip_ansi_codes p.2 ""))))
    ∧ (save_json_results version date_run st git_sha md_now)[4]? =
        some ("tests_warned",
          .pairs (st.warned.map (fun p => (p.1, strip_ansi_codes p.2 ""))))
    ∧ (save_json_results version date_run st git_sha md_now)[5]? =
        some ("tests_failed",
          .pairs (st.failed.map (fun p => (p.1, strip_ansi_codes p.2 ""))))
    ∧ (save_json_results version date_run st git_sha md_now)[6]? =
        some ("num_tests_pass", .num st.passed.length)
    ∧ (save_json_results version date_run st git_sha md_now)[7]? =
        some ("num_tests_ignored", .num st.ignored.length)
    ∧ (save_json_results version date_run st git_sha md_now)[8]? =
        some ("num_tests_warned", .num st.warned.length)
    ∧ (save_json_results version date_run st git_sha md_now)[9]? =
        some ("num_tests_failed", .num st.failed.length)
    ∧ (save_json_results version date_run st git_sha md_now)[10]? =
        some ("has_tests_pass", .bool (decide (st.passed.length > 0)))
    ∧ (save_json_results version date_run st git_sha md_now)[11]? =
        some ("has_tests_warned", .bool (decide (st.warned.length > 0)))
    ∧ (save_json_results version date_run st git_sha md_now)[12]? =
        some ("has_tests_failed", .bool (decide (st.failed.length > 0)))
    ∧ (save_json_results version date_run st git_sha md_now)[13]? =
        some ("markdown_result", .str (get_results_md st git_sha version md_now)) :=
  ⟨rfl, rfl, rfl, rfl, rfl, rfl, rfl, rfl, rfl, rfl, rfl, rfl, rfl, rfl, rfl⟩

set_option maxRecDepth 100000 in
set_option maxHeartbeats 1000000 in
/-- C8 counterexample: the renderers read the wall clock internally
(`datetime.datetime.now()` at lines 429 and 472), so two invocations
over the same aggregate state at different clock readings yield
different bytes — the timestamp is not an injectable input. -/
theorem c8_wall_clock_read :
    get_results_md sampleState none "1.10" "2020-01-01 00:00:00" ≠
        get_results_md sampleState none "1.10" "2020-01-02 00:00:00"
      ∧ save_json_results "1.10" "2020-01-01 00:00:00" sampleState none
            "2020-01-01 00:00:00" ≠
          save_json_results "1.10" "2020-01-02 00:00:00" sampleState none
            "2020-01-02 00:00:00" := by
  constructor <;> decide

/-- C8 (amended): bucket content and counts in the JSON rendering are
deterministic in the aggregate state alone — the eleven bucket fields
(pair sequences, counts, flags) are byte-identical across different
internal clock readings; only the timestamp-bearing fields (`date_run`
and the embedded Markdown, whose footer holds the second clock read)
can differ, because the renderers read the wall clock internally
instead of taking an injected timestamp. -/
theorem c8_buckets_time_independent (version : String) (st : LintState)
    (git_sha : Option String) (t₁ t₂ m₁ m₂ : String) :
    ((save_json_results version t₁ st git_sha m₁).drop 2).take 11 =
      ((save_json_results version t₂ st git_sha m₂).drop 2).take 11 := by
  simp [save_json_results]

/-! ### Behaviour of the lint loop -/

/-- A check that raises stops the loop at once, with the buckets
unchanged from the entry state and only that check newly invoked. -/
theorem lintPipelineAux_error_head (checks : String → Except LintError CheckResult)
    (cfg : String → Option Bool) (t : String) (rest : List String)
    (st : LintState) (e : LintError)
    (hskip : cfg t ≠ some false) (herr : checks t = .error e) :
    lintPipelineAux checks cfg (t :: rest) st = ⟨st, [t], some e⟩ := by
  simp [lintPipelineAux, hskip, herr]

/-- Splitting a run at a point that the first part reaches without an
error: the second part continues from the first part's state, and the
traces concatenate. -/
theorem lintPipelineAux_append (checks : String → Except LintError CheckResult)
    (cfg : String → Option Bool) (suf : List String) :
    ∀ (pre : List String) (st : LintState),
      (lintPipelineAux checks cfg pre st).err = none →
      lintPipelineAux checks cfg (pre ++ suf) st =
        ⟨(lintPipelineAux checks cfg suf (lintPipelineAux checks cfg pre st).state).state,
         (lintPipelineAux checks cfg pre st).trace
           ++ (lintPipelineAux checks cfg suf (lintPipelineAux checks cfg pre st).state).trace,
         (lintPipelineAux checks cfg suf (lintPipelineAux checks cfg pre st).state).err⟩ := by
  intro pre
  induction pre with
  | nil =>
    intro st _
    simp [lintPipelineAux]
  | cons t pre ih =>
    intro st herr
    by_cases hskip : cfg t = some false
    · simp only [List.cons_append, lintPipelineAux, if_pos hskip] at herr ⊢
      exact ih _ herr
    · cases hc : checks t with
      | error e =>
        rw [lintPipelineAux_error_head checks cfg t pre st e hskip hc] at herr
        simp at herr
      | ok res =>
        simp only [List.cons_append, List.append_eq, lintPipelineAux, if_neg hskip, hc,
          consTrace] at herr ⊢
        rw [ih _ herr]

/-- C5: a critical error aborts the run at the raising check: checks
after it are never invoked, the critical message is surfaced to the
caller, and the partial aggregate state — exactly the entries of the
checks completed before the abort — is returned without any report
rendering (`run_linting` returns straight from the `except` branch). -/
theorem c5_critical_abort (checks : String → Except LintError CheckResult)
    (cfg : String → Option Bool) (pre : List String) (t : String)
    (rest : List String) (st₁ : LintState) (tr₁ : List String) (m : String)
    (hpre : lintPipelineAux checks cfg pre emptyLintState = ⟨st₁, tr₁, none⟩)
    (hskip : cfg t ≠ some false)
    (hcrit : checks t = .error (.critical m)) :
    run_linting checks cfg (pre ++ t :: rest) = .aborted m st₁ (tr₁ ++ [t]) := by
  have h : lintPipeline checks cfg (pre ++ t :: rest)
      = ⟨st₁, tr₁ ++ [t], some (.critical m)⟩ := by
    unfold lintPipeline
    rw [lintPipelineAux_append checks cfg (t :: rest) pre emptyLintState (by rw [hpre])]
    rw [hpre]
    rw [lintPipelineAux_error_head checks cfg t rest _ _ hskip hcrit]
  simp [run_linting, h]

/-- C5 witness: with `files_exist` passing and `docker` raising a
critical error, the run aborts after `docker`; `licence` never runs and
only the `files_exist` entry is in the returned state. -/
theorem c5_critical_abort_witness :
    lintPipelineAux critChecks noCfg ["files_exist"] emptyLintState =
        ⟨⟨[("files_exist", "Pipeline found")], [], [], []⟩, ["files_exist"], none⟩
      ∧ noCfg "docker" ≠ some false
      ∧ critChecks "docker" = .error (.critical "missing main.nf")
      ∧ run_linting critChecks noCfg (["files_exist"] ++ "docker" :: ["licence"]) =
          .aborted "missing main.nf" ⟨[("files_exist", "Pipeline found")], [], [], []⟩
            ["files_exist", "docker"] :=
  ⟨by decide, by decide, rfl,
   c5_critical_abort critChecks noCfg ["files_exist"] "docker" ["licence"]
     ⟨[("files_exist", "Pipeline found")], [], [], []⟩ ["files_exist"] "missing main.nf"
     (by decide) (by decide) rfl⟩

/-- C1 counterexample (Scenario B of the spec): with a registry of one
check raising the non-critical error `boom`, the run does not complete
with `failed` containing the pair — the exception is not caught (the
loop at lines 286-299 has no `try`, and `run_linting` catches only
`AssertionError`), so it propagates and the `failed` bucket stays
empty. -/
theorem c1_counterexample :
    run_linting boomChecks noCfg ["checkA"] =
        .crashed "boom" emptyLintState ["checkA"]
      ∧ (lintPipeline boomChecks noCfg ["checkA"]).state.failed = [] :=
  ⟨rfl, rfl⟩

/-- C1 (amended): a non-critical error raised by a check is NOT caught:
it aborts the run just like a critical one, except that it propagates
out of `run_linting` uncaught; no `failed` entry is recorded for the
raising check (the state stays exactly the accumulation of the checks
before it) and no subsequent check runs. -/
theorem c1_noncritical_crashes (checks : String → Except LintError CheckResult)
    (cfg : String → Option Bool) (pre : List String) (t : String)
    (rest : List String) (st₁ : LintState) (tr₁ : List String) (m : String)
    (hpre : lintPipelineAux checks cfg pre emptyLintState = ⟨st₁, tr₁, none⟩)
    (hskip : cfg t ≠ some false)
    (hnc : checks t = .error (.noncritical m)) :
    run_linting checks cfg (pre ++ t :: rest) = .crashed m st₁ (tr₁ ++ [t]) := by
  have h : lintPipeline checks cfg (pre ++ t :: rest)
      = ⟨st₁, tr₁ ++ [t], some (.noncritical m)⟩ := by
    unfold lintPipeline
    rw [lintPipelineAux_append checks cfg (t :: rest) pre emptyLintState (by rw [hpre])]
    rw [hpre]
    rw [lintPipelineAux_error_head checks cfg t rest _ _ hskip hnc]
  simp [run_linting, h]

/-- C1 witness: one crashing check followed by another check that is
never reached. -/
theorem c1_noncritical_crashes_witness :
    lintPipelineAux boomChecks noCfg [] emptyLintState = ⟨emptyLintState, [], none⟩
      ∧ noCfg "checkA" ≠ some false
      ∧ boomChecks "checkA" = .error (.noncritical "boom")
      ∧ run_linting boomChecks noCfg ([] ++ "checkA" :: ["checkB"]) =
          .crashed "boom" emptyLintState ["checkA"] :=
  ⟨rfl, by decide, rfl,
   c1_noncritical_crashes boomChecks noCfg [] "checkA" ["checkB"] emptyLintState [] "boom"
     rfl (by decide) rfl⟩

/-- Entries appended for a check named `t` never carry another name. -/
theorem filter_name_map (N t : String) (h : t ≠ N) (msgs : List String) :
    (msgs.map (fun m => (t, m))).filter (fun e => e.1 == N) = [] := by
  induction msgs with
  | nil => rfl
  | cons m ms ih => simp [List.filter_cons, h, ih]

/-- A name that does not occur in the remaining test list gains no new
entries in any bucket and is never invoked. -/
theorem lintPipelineAux_not_mem (checks : String → Except LintError CheckResult)
    (cfg : String → Option Bool) (N : String) :
    ∀ (tests : List String), N ∉ tests → ∀ st : LintState,
      ((lintPipelineAux checks cfg tests st).state.ignored.filter (fun e => e.1 == N)
          = st.ignored.filter (fun e => e.1 == N))
      ∧ N ∉ (lintPipelineAux checks cfg tests st).trace
      ∧ ((lintPipelineAux checks cfg tests st).state.passed.filter (fun e => e.1 == N)
          = st.passed.filter (fun e => e.1 == N))
      ∧ ((lintPipelineAux checks cfg tests st).state.warned.filter (fun e => e.1 == N)
          = st.warned.filter (fun e => e.1 == N))
      ∧ ((lintPipelineAux checks cfg tests st).state.failed.filter (fun e => e.1 == N)
          = st.failed.filter (fun e => e.1 == N)) := by
  intro tests
  induction tests with
  | nil => intro _ st; simp [lintPipelineAux]
  | cons t rest ih =>
    intro hN st
    have htN : t ≠ N := fun h => hN (h ▸ List.mem_cons_self t rest)
    have hNrest : N ∉ rest := fun h => hN (List.mem_cons_of_mem t h)
    by_cases hskip : cfg t = some false
    · simp only [lintPipelineAux, if_pos hskip]
      obtain ⟨hig, htr, hp, hw, hf⟩ :=
        ih hNrest { st with ignored := st.ignored ++ [(t, t)] }
      refine ⟨?_, htr, hp, hw, hf⟩
      rw [hig]
      simp [List.filter_append, htN]
    · cases hc : checks t with
      | error e =>
        rw [lintPipelineAux_error_head checks cfg t rest st e hskip hc]
        have : N ≠ t := Ne.symm htN
        simp [this]
      | ok res =>
        simp only [lintPipelineAux, if_neg hskip, hc, consTrace]
        obtain ⟨hig, htr, hp, hw, hf⟩ := ih hNrest (appendResults st t res)
        refine ⟨?_, ?_, ?_, ?_, ?_⟩
        · rw [hig]; simp [appendResults]
        · simp [htr, Ne.symm htN]
        · rw [hp]; simp [appendResults, List.filter_append, filter_name_map N t htN]
        · rw [hw]; simp [appendResults, List.filter_append, filter_name_map N t htN]
        · rw [hf]; simp [appendResults, List.filter_append, filter_name_map N t htN]

/-- With the lint config disabling `N` and `N` occurring exactly once,
a run that finishes without error records `(N, N)` in `ignored` exactly
once beyond the entry state, never invokes `N`, and adds no `N`-named
entry to any other bucket. -/
theorem lintPipelineAux_skip_once (checks : String → Except LintError CheckResult)
    (cfg : String → Option Bool) (N : String) (hcfg : cfg N = some false) :
    ∀ (tests : List String), tests.count N = 1 → ∀ st : LintState,
      (lintPipelineAux checks cfg tests st).err = none →
      ((lintPipelineAux checks cfg tests st).state.ignored.filter (fun e => e.1 == N)
          = st.ignored.filter (fun e => e.1 == N) ++ [(N, N)])
      ∧ N ∉ (lintPipelineAux checks cfg tests st).trace
      ∧ ((lintPipelineAux checks cfg tests st).state.passed.filter (fun e => e.1 == N)
          = st.passed.filter (fun e => e.1 == N))
      ∧ ((lintPipelineAux checks cfg tests st).state.warned.filter (fun e => e.1 == N)
          = st.warned.filter (fun e => e.1 == N))
      ∧ ((lintPipelineAux checks cfg tests st).state.failed.filter (fun e => e.1 == N)
          = st.failed.filter (fun e => e.1 == N)) := by
  intro tests
  induction tests with
  | nil => intro h; simp at h
  | cons t rest ih =>
    intro hcount st herr
    by_cases htN : t = N
    · subst htN
      have hrest : rest.count t = 0 := by
        rw [List.count_cons_self] at hcount; omega
      have hNrest : t ∉ rest := List.count_eq_zero.mp hrest
      simp only [lintPipelineAux, if_pos hcfg] at herr ⊢
      obtain ⟨hig, htr, hp, hw, hf⟩ :=
        lintPipelineAux_not_mem checks cfg t rest hNrest
          { st with ignored := st.ignored ++ [(t, t)] }
      refine ⟨?_, htr, hp, hw, hf⟩
      rw [hig]
      simp [List.filter_append]
    · have hcount' : rest.count N = 1 := by
        rw [List.count_cons_of_ne (Ne.symm htN)] at hcount; exact hcount
      by_cases hskip : cfg t = some false
      · simp only [lintPipelineAux, if_pos hskip] at herr ⊢
        obtain ⟨hig, htr, hp, hw, hf⟩ :=
          ih hcount' { st with ignored := st.ignored ++ [(t, t)] } herr
        refine ⟨?_, htr, hp, hw, hf⟩
        rw [hig]
        simp [List.filter_append, htN]
      · cases hc : checks t with
        | error e =>
          rw [lintPipelineAux_error_head checks cfg t rest st e hskip hc] at herr
          simp at herr
        | ok res =>
          simp only [lintPipelineAux, if_neg hskip, hc, consTrace] at herr ⊢
          obtain ⟨hig, htr, hp, hw, hf⟩ := ih hcount' (appendResults st t res) herr
          refine ⟨?_, ?_, ?_, ?_, ?_⟩
          · rw [hig]; simp [appendResults]
          · simp [htr, Ne.symm htN]
          · rw [hp]; simp [appendResults, List.filter_append, filter_name_map N t htN]
          · rw [hw]; simp [appendResults, List.filter_append, filter_name_map N t htN]
          · rw [hf]; simp [appendResults, List.filter_append, filter_name_map N t htN]

/-- C6: a registered check name `N` that the override mapping sends
explicitly to `False` appears — after a run that completes — exactly
once in the `ignored` bucket, as the pair `(N, N)`; its body is never
invoked and it contributes no entry to the passed, warned or failed
buckets. -/
theorem c6_override_false_ignored (checks : String → Except LintError CheckResult)
    (cfg : String → Option Bool) (N : String) (tests : List String)
    (hcfg : cfg N = some false) (hcount : tests.count N = 1)
    (hok : (lintPipeline checks cfg tests).err = none) :
    ((lintPipeline checks cfg tests).state.ignored.filter (fun e => e.1 == N) = [(N, N)])
    ∧ N ∉ (lintPipeline checks cfg tests).trace
    ∧ (lintPipeline checks cfg tests).state.passed.filter (fun e => e.1 == N) = []
    ∧ (lintPipeline checks cfg tests).state.warned.filter (fun e => e.1 == N) = []
    ∧ (lintPipeline checks cfg tests).state.failed.filter (fun e => e.1 == N) = [] := by
  obtain ⟨hig, htr, hp, hw, hf⟩ :=
    lintPipelineAux_skip_once checks cfg N hcfg tests hcount emptyLintState hok
  exact ⟨hig.trans rfl, htr, hp.trans rfl, hw.trans rfl, hf.trans rfl⟩

/-- C6 witness: registry `[a, b]` with `b` disabled (Scenario C): `b`
is ignored exactly once, never invoked, and only `a` populates the
other buckets. -/
theorem c6_override_false_ignored_witness :
    skipBCfg "b" = some false
      ∧ (["a", "b"].count "b" = 1)
      ∧ (lintPipeline okChecks skipBCfg ["a", "b"]).err = none
      ∧ ((lintPipeline okChecks skipBCfg ["a", "b"]).state.ignored.filter
            (fun e => e.1 == "b") = [("b", "b")])
      ∧ "b" ∉ (lintPipeline okChecks skipBCfg ["a", "b"]).trace
      ∧ (lintPipeline okChecks skipBCfg ["a", "b"]).state.passed.filter
            (fun e => e.1 == "b") = [] :=
  ⟨by decide, by decide, by decide,
   (c6_override_false_ignored okChecks skipBCfg "b" ["a", "b"]
      (by decide) (by decide) (by decide)).1,
   (c6_override_false_ignored okChecks skipBCfg "b" ["a", "b"]
      (by decide) (by decide) (by decide)).2.1,
   (c6_override_false_ignored okChecks skipBCfg "b" ["a", "b"]
      (by decide) (by decide) (by decide)).2.2.1⟩

/-! ### The ANSI stripping function -/

/-- A character other than the escape character never starts a match of
the regex. -/
theorem ansiMatchLen_no_esc (c : Char) (cs : List Char) (hc : c ≠ escChar) :
    ansiMatchLen (c :: cs) = none := by
  cases cs with
  | nil => rfl
  | cons d ds => simp [ansiMatchLen, hc]

/-- One substitution pass over a list free of the escape character is a
no-op. -/
theorem stripAnsiAux_no_esc (rep : List Char) :
    ∀ (fuel : Nat) (l : List Char), escChar ∉ l → stripAnsiAux rep fuel l = l := by
  intro fuel
  induction fuel with
  | zero => intro l _; rfl
  | succ fuel ih =>
    intro l hl
    cases l with
    | nil => rfl
    | cons c cs =>
      have hc : c ≠ escChar := fun h => hl (h ▸ List.mem_cons_self c cs)
      have hcs : escChar ∉ cs := fun h => hl (List.mem_cons_of_mem c h)
      unfold stripAnsiAux
      rw [ansiMatchLen_no_esc c cs hc]
      exact congrArg (c :: ·) (ih cs hcs)

/-- C9 (amended): stripping is a no-op on a string that contains no
escape character; hence a second strip is a no-op whenever the first
pass left no escape character behind. Unconditional idempotence fails:
removing a match can splice a preceding escape character onto the
following text, forming a new escape sequence — see the
counterexample. -/
theorem c9_strip_noop (rep s : String)
    (h : escChar ∉ (strip_ansi_codes s rep).toList) :
    strip_ansi_codes (strip_ansi_codes s rep) rep = strip_ansi_codes s rep := by
  conv_lhs => rw [strip_ansi_codes]
  rw [stripAnsiAux_no_esc rep.toList _ _ h]
  exact rfl

/-- C9 witness: a message whose single escape sequence strips away
cleanly, after which stripping again changes nothing. -/
theorem c9_strip_noop_witness :
    escChar ∉ (strip_ansi_codes redMsg "").toList
      ∧ strip_ansi_codes (strip_ansi_codes redMsg "") "" = strip_ansi_codes redMsg "" :=
  ⟨by decide, c9_strip_noop "" redMsg (by decide)⟩

/-- C9 counterexample: stripping is not idempotent, for the empty
replacement used by the JSON renderer nor for the backtick replacement
used by the Markdown renderer: deleting a complete escape sequence can
join a preceding escape character with the following text into a new
match that only a second pass removes. -/
theorem c9_counterexample :
    strip_ansi_codes (strip_ansi_codes spliceMsg "") "" ≠ strip_ansi_codes spliceMsg ""
      ∧ strip_ansi_codes (strip_ansi_codes spliceMsg₂ "`") "`"
          ≠ strip_ansi_codes spliceMsg₂ "`" := by
  constructor <;> decide

end NfCoreLint
